import Mathlib

/-!
Verification development for the secure-game-arena repository.

The definitions below are a shallow embedding of the tournament status
engine (services/TournamentStatusService, src/unnamed/part_002), the
join flow (TournamentList.handleJoinTournament, src/unnamed/part_009),
the wallet/admin handlers (WithdrawalManagement.js, UserManagement.js,
RechargeRequests in src/unnamed/part_007) and the withdrawal request
flow (UserProfile.handleWithdrawRequest).

Conventions:
- Wall-clock instants are integers in milliseconds (JS Date.getTime).
- Currency amounts are integers (the scenarios in the spec use whole
  rupee amounts; JS numbers behave as exact integers in this range).
- DOMPurify.sanitize is an external library; every operation that uses
  it is parameterized over a function (sanitize : String -> String).
- Firestore serverTimestamp() is modelled by the pass wall-clock time,
  and ISO date strings by opaque String parameters.
- JS falsy checks on possibly-missing numeric fields
  (userData.walletBalance || 0) are modelled by Option.getD 0.
-/

/-- Executable model of the JS String.prototype.trim method (used
instead of String.trim so that concrete witnesses evaluate by rfl). -/
def jsTrim (s : String) : String :=
  String.mk (((s.data.dropWhile Char.isWhitespace).reverse.dropWhile Char.isWhitespace).reverse)

/-- Executable model of the JS String.prototype.toLowerCase method. -/
def jsToLower (s : String) : String :=
  String.mk (s.data.map Char.toLower)

/-- Tournament lifecycle states as used by the repository
(pending / upcoming / live / completed / rejected string statuses). -/
inductive TStatus where
  | pending
  | upcoming
  | live
  | completed
  | rejected
deriving DecidableEq, Repr

/-- Participant record embedded in a tournament document, as written by
handleJoinTournament (part_009 lines 170-175). -/
structure Participant where
  userId : String
  email : String
  username : String
  joinedAt : String
deriving DecidableEq, Repr

/-- Tournament document fields used by the status engine, the join flow
and the admin approval handlers.  startTime is the combined
tournamentDate + tournamentTime instant in milliseconds; it is an Option
because the engine skips records missing date or time (part_002 line 35).
Fields not read or written by any modelled operation are omitted. -/
structure Tournament where
  id : String
  status : TStatus
  statusUpdatedAt : Option Int
  startTime : Option Int
  entryFee : Int
  maxParticipants : Nat
  participants : List Participant
  approved : Option Bool
  rejectionReason : Option String
deriving DecidableEq, Repr

/-- Elapsed minutes since the live timestamp, exactly the JS expression
(now - liveTimestamp) / (1000 * 60) from part_002 line 69, computed in
exact rational arithmetic. -/
def diffInMinutes (now liveTimestamp : Int) : ℚ :=
  ((now - liveTimestamp : Int) : ℚ) / (1000 * 60)

/-- The upcomingToLive filter of checkAndUpdateTournamentStatuses
(part_002 lines 30-49): status upcoming, date and time present, and the
current time minus the 30 second grace buffer at or past the start. -/
def upcomingShouldGoLive (now : Int) (t : Tournament) : Bool :=
  decide (t.status = TStatus.upcoming) &&
    (match t.startTime with
     | none => false
     | some start => decide (start ≤ now - 30 * 1000))

/-- The backfill branch of the liveToCompleted filter (part_002 lines
56-63): a live tournament without statusUpdatedAt gets the timestamp
written on this pass and is excluded from completion on this pass. -/
def liveNeedsBackfill (t : Tournament) : Bool :=
  decide (t.status = TStatus.live) && t.statusUpdatedAt.isNone

/-- The liveToCompleted filter of checkAndUpdateTournamentStatuses
(part_002 lines 52-73): status live, statusUpdatedAt present, and at
least 10 elapsed minutes since it. -/
def liveShouldComplete (now : Int) (t : Tournament) : Bool :=
  decide (t.status = TStatus.live) &&
    (match t.statusUpdatedAt with
     | none => false
     | some liveTs => decide ((10 : ℚ) ≤ diffInMinutes now liveTs))

/-- Effect of one reconciliation pass (checkAndUpdateTournamentStatuses,
part_002 lines 16-124) on a single tournament document: upcoming
tournaments past their start go live with a fresh statusUpdatedAt; live
tournaments without a timestamp get it backfilled and are not completed
this pass; live tournaments past the 10 minute window are completed with
a fresh statusUpdatedAt; everything else is untouched. -/
def reconcileTournament (now : Int) (t : Tournament) : Tournament :=
  if upcomingShouldGoLive now t then
    { t with status := TStatus.live, statusUpdatedAt := some now }
  else if liveNeedsBackfill t then
    { t with statusUpdatedAt := some now }
  else if liveShouldComplete now t then
    { t with status := TStatus.completed, statusUpdatedAt := some now }
  else t

/-- The admin query that feeds the approval screen
(TournamentApproval.fetchPendingTournaments, where status == pending). -/
def fetchPendingTournaments (ts : List Tournament) : List Tournament :=
  ts.filter fun t => decide (t.status = TStatus.pending)

/-- Tournament-status-affecting operations of the system: a
reconciliation pass at a given instant, admin approval
(handleApproveTournament) and admin rejection (handleRejectTournament),
the latter parameterized by the external sanitizer. -/
inductive TournamentOp where
  | reconcile (now : Int)
  | adminApprove
  | adminReject (sanitize : String → String) (reason : String)

/-- Application of a tournament operation to a tournament document,
translated from part_002 and TournamentApproval.js lines 55-99. -/
def applyTournamentOp : TournamentOp → Tournament → Tournament
  | TournamentOp.reconcile now, t => reconcileTournament now t
  | TournamentOp.adminApprove, t =>
      { t with status := TStatus.upcoming, approved := some true }
  | TournamentOp.adminReject sanitize reason, t =>
      { t with status := TStatus.rejected, approved := some false,
               rejectionReason := some (sanitize (jsTrim reason)) }

/-- When an operation can reach a tournament: reconciliation scans the
whole collection; the admin approve/reject buttons act only on
tournaments returned by the pending-status query of
fetchPendingTournaments (TournamentApproval.js lines 21-46). -/
def opApplicable : TournamentOp → Tournament → Prop
  | TournamentOp.reconcile _, _ => True
  | TournamentOp.adminApprove, t => t.status = TStatus.pending
  | TournamentOp.adminReject _ _, t => t.status = TStatus.pending

/-- Forward order on statuses along the lifecycle
pending → upcoming → live → completed and pending → rejected
(reflexive-transitive closure of the allowed transitions). -/
def statusForward : TStatus → TStatus → Bool
  | TStatus.pending, _ => true
  | TStatus.upcoming, TStatus.upcoming => true
  | TStatus.upcoming, TStatus.live => true
  | TStatus.upcoming, TStatus.completed => true
  | TStatus.live, TStatus.live => true
  | TStatus.live, TStatus.completed => true
  | TStatus.completed, TStatus.completed => true
  | TStatus.rejected, TStatus.rejected => true
  | _, _ => false

theorem statusForward_refl (s : TStatus) : statusForward s s = true := by
  cases s <;> rfl

theorem ten_le_diffInMinutes_iff (now ts : Int) :
    ((10 : ℚ) ≤ diffInMinutes now ts) ↔ (600000 : Int) ≤ now - ts := by
  unfold diffInMinutes
  rw [le_div_iff₀ (by norm_num : (0 : ℚ) < 1000 * 60)]
  constructor
  · intro h
    exact_mod_cast h
  · intro h
    exact_mod_cast h

theorem upcomingShouldGoLive_status {now : Int} {t : Tournament}
    (h : upcomingShouldGoLive now t = true) : t.status = TStatus.upcoming := by
  unfold upcomingShouldGoLive at h
  rcases Bool.and_eq_true_iff.mp h with ⟨h1, _⟩
  exact of_decide_eq_true h1

theorem liveNeedsBackfill_status {t : Tournament}
    (h : liveNeedsBackfill t = true) : t.status = TStatus.live := by
  unfold liveNeedsBackfill at h
  rcases Bool.and_eq_true_iff.mp h with ⟨h1, _⟩
  exact of_decide_eq_true h1

theorem liveShouldComplete_status {now : Int} {t : Tournament}
    (h : liveShouldComplete now t = true) : t.status = TStatus.live := by
  unfold liveShouldComplete at h
  rcases Bool.and_eq_true_iff.mp h with ⟨h1, _⟩
  exact of_decide_eq_true h1

theorem upcomingShouldGoLive_of_live {now : Int} {t : Tournament}
    (hs : t.status = TStatus.live) : upcomingShouldGoLive now t = false := by
  unfold upcomingShouldGoLive
  simp [hs]

/-- C2: a tournament stamped live at time T is not completed by a
reconciliation pass at T + 9 min 59 s, and is completed (with a freshly
stamped statusUpdatedAt) by a pass at T + 10 min 01 s. -/
theorem live_window_correct (t : Tournament) (ts : Int)
    (hs : t.status = TStatus.live) (hu : t.statusUpdatedAt = some ts) :
    (reconcileTournament (ts + 599000) t).status = TStatus.live ∧
    (reconcileTournament (ts + 601000) t).status = TStatus.completed ∧
    (reconcileTournament (ts + 601000) t).statusUpdatedAt = some (ts + 601000) := by
  have hbf : liveNeedsBackfill t = false := by
    unfold liveNeedsBackfill
    simp [hu]
  have hc1 : liveShouldComplete (ts + 599000) t = false := by
    unfold liveShouldComplete
    simp only [hs, hu, decide_True, Bool.true_and, decide_eq_false_iff_not,
      ten_le_diffInMinutes_iff]
    omega
  have hc2 : liveShouldComplete (ts + 601000) t = true := by
    unfold liveShouldComplete
    simp only [hs, hu, decide_True, Bool.true_and, decide_eq_true_eq,
      ten_le_diffInMinutes_iff]
    omega
  refine ⟨?_, ?_, ?_⟩ <;>
    simp [reconcileTournament, upcomingShouldGoLive_of_live hs, hbf, hc1, hc2, hs]

/-- Concrete live tournament used to instantiate the status-engine
theorems. -/
def tLiveStamped : Tournament :=
  { id := "t1", status := TStatus.live, statusUpdatedAt := some 0,
    startTime := none, entryFee := 100, maxParticipants := 10,
    participants := [], approved := none, rejectionReason := none }

theorem live_window_correct_witness :
    (reconcileTournament 599000 tLiveStamped).status = TStatus.live ∧
    (reconcileTournament 601000 tLiveStamped).status = TStatus.completed ∧
    (reconcileTournament 601000 tLiveStamped).statusUpdatedAt = some 601000 := by
  have h := live_window_correct tLiveStamped 0 rfl rfl
  simpa using h

/-- C8: a reconciliation pass that observes a live tournament without a
statusUpdatedAt stamps the current time into statusUpdatedAt and leaves
the tournament live on that pass, never completing it on the pass that
back-fills the timestamp. -/
theorem backfill_defers_completion (now : Int) (t : Tournament)
    (hs : t.status = TStatus.live) (hu : t.statusUpdatedAt = none) :
    (reconcileTournament now t).status = TStatus.live ∧
    (reconcileTournament now t).statusUpdatedAt = some now := by
  have hbf : liveNeedsBackfill t = true := by
    unfold liveNeedsBackfill
    simp [hs, hu]
  constructor <;>
    simp [reconcileTournament, upcomingShouldGoLive_of_live hs, hbf, hs]

/-- Concrete legacy live tournament lacking statusUpdatedAt. -/
def tLiveLegacy : Tournament :=
  { id := "t2", status := TStatus.live, statusUpdatedAt := none,
    startTime := none, entryFee := 100, maxParticipants := 10,
    participants := [], approved := none, rejectionReason := none }

theorem backfill_defers_completion_witness :
    (reconcileTournament 123456 tLiveLegacy).status = TStatus.live ∧
    (reconcileTournament 123456 tLiveLegacy).statusUpdatedAt = some 123456 :=
  backfill_defers_completion 123456 tLiveLegacy rfl rfl

/-- C3: every operation of the system (a reconciliation pass, an admin
approval, an admin rejection) moves a tournament status only forward
along pending → upcoming → live → completed or pending → rejected; in
particular no reconciliation pass moves a status backward.  The admin
operations act on tournaments selected by the pending-status query
(opApplicable). -/
theorem status_monotonic (op : TournamentOp) (t : Tournament)
    (h : opApplicable op t) :
    statusForward t.status (applyTournamentOp op t).status = true := by
  cases op with
  | reconcile now =>
    show statusForward t.status (reconcileTournament now t).status = true
    unfold reconcileTournament
    split_ifs with h1 h2 h3
    · rw [upcomingShouldGoLive_status h1]
      rfl
    · exact statusForward_refl t.status
    · rw [liveShouldComplete_status h3]
      rfl
    · exact statusForward_refl t.status
  | adminApprove =>
    have hp : t.status = TStatus.pending := h
    show statusForward t.status TStatus.upcoming = true
    rw [hp]
    rfl
  | adminReject sanitize reason =>
    have hp : t.status = TStatus.pending := h
    show statusForward t.status TStatus.rejected = true
    rw [hp]
    rfl

theorem status_monotonic_witness :
    statusForward tLiveStamped.status
      (applyTournamentOp (TournamentOp.reconcile 601000) tLiveStamped).status = true :=
  status_monotonic (TournamentOp.reconcile 601000) tLiveStamped trivial

/-- Status of a withdrawal or recharge request document. -/
inductive ReqStatus where
  | pending
  | approved
  | rejected
deriving DecidableEq, Repr

/-- User document fields read or written by the modelled wallet
operations.  walletBalance is an Option because the handlers guard a
possibly missing field with (userData.walletBalance || 0). -/
structure UserDoc where
  email : String
  walletBalance : Option Int
  lastUpdated : Option String
deriving DecidableEq, Repr

/-- Withdrawal request document as created by
UserProfile.handleWithdrawRequest and processed by
WithdrawalManagement.handleApproveRequest / handleRejectRequest. -/
structure WithdrawalRequest where
  userId : String
  userEmail : String
  accountName : String
  accountNumber : String
  bankName : String
  amount : Int
  status : ReqStatus
  requestDate : String
  processedDate : Option String
  notes : String
  proofImageUrl : Option String
deriving DecidableEq, Repr

/-- Recharge request document as processed by the admin recharge screen
(src/unnamed/part_007). -/
structure RechargeRequest where
  userId : String
  userEmail : String
  amount : Int
  status : ReqStatus
  requestDate : String
  processedDate : Option String
  notes : String
deriving DecidableEq, Repr

/-- Reward history record appended by UserManagement.handleAddFunds
(lines 129-140). -/
structure RewardRecord where
  userId : String
  userEmail : String
  amount : Int
  description : String
  gameName : Option String
  position : Option String
  addedBy : String
  timestamp : Int
  previousBalance : Int
  newBalance : Int
deriving DecidableEq, Repr

/-- utils/security.sanitizeInput on strings: trim, then the external
DOMPurify.sanitize (passed in as the sanitize parameter). -/
def sanitizeInput (sanitize : String → String) (s : String) : String :=
  sanitize (jsTrim s)

/-- Firestore arrayUnion: appends the element unless an equal element is
already present. -/
def arrayUnion [DecidableEq α] (xs : List α) (x : α) : List α :=
  if x ∈ xs then xs else xs ++ [x]

/-- The distinct user-facing rejection reasons of
TournamentList.handleJoinTournament (part_009 lines 120-156). -/
inductive JoinError where
  | usernameRequired
  | usernameLength
  | usernameTaken
  | insufficientBalance
  | tournamentFull
deriving DecidableEq, Repr

/-- State written by a successful join: the new wallet balance and
joined-tournaments list of the user document, and the tournament with
the appended participant. -/
structure JoinResult where
  walletBalance : Int
  joinedTournaments : List String
  tournament : Tournament
deriving DecidableEq, Repr

/-- The username-taken check of handleJoinTournament (part_009 lines
137-138): some participant has a truthy username equal
case-insensitively to the sanitized requested one. -/
def usernameTakenIn (participants : List Participant) (sanitized : String) : Bool :=
  participants.any fun p =>
    (p.username != "") && (jsToLower p.username == jsToLower sanitized)

/-- TournamentList.handleJoinTournament (part_009 lines 112-188): the
guard chain in source order (username required, sanitized length 3..20,
username taken case-insensitively, insufficient balance, tournament
full), then the two writes: the user document gets the debited balance
and the tournament id arrayUnioned into joinedTournaments, and the
tournament gets the new participant record arrayUnioned in.  An error
result models the early returns, which issue no writes. -/
def handleJoinTournament (sanitize : String → String) (uid email : String)
    (walletBalance : Int) (joinedTournaments : List String)
    (username : String) (t : Tournament) (nowIso : String) :
    Except JoinError JoinResult :=
  if jsTrim username = "" then Except.error JoinError.usernameRequired
  else
    let sanitizedUsername := sanitize (jsTrim username)
    if sanitizedUsername.length < 3 ∨ 20 < sanitizedUsername.length then
      Except.error JoinError.usernameLength
    else if usernameTakenIn t.participants sanitizedUsername then
      Except.error JoinError.usernameTaken
    else if walletBalance < t.entryFee then
      Except.error JoinError.insufficientBalance
    else if t.maxParticipants ≤ t.participants.length then
      Except.error JoinError.tournamentFull
    else
      let newParticipant : Participant :=
        { userId := uid, email := email,
          username := sanitizedUsername, joinedAt := nowIso }
      Except.ok
        { walletBalance := walletBalance - t.entryFee,
          joinedTournaments := arrayUnion joinedTournaments t.id,
          tournament :=
            { t with participants := arrayUnion t.participants newParticipant } }

/-- WithdrawalManagement.handleApproveRequest (lines 191-229): the
request is set to approved with a processed date, sanitized notes and
the proof image; then, only if the user document exists, the wallet is
debited floored at zero.  The second component is the user-document
write (none when the document does not exist, in which case no wallet
write of any kind occurs and the handler still reports success). -/
def handleApproveRequest (sanitize : String → String) (nowIso : String)
    (req : WithdrawalRequest) (adminNotes : String) (imageUrl : Option String)
    (userDoc : Option UserDoc) : WithdrawalRequest × Option UserDoc :=
  let req2 :=
    { req with status := ReqStatus.approved, processedDate := some nowIso,
               notes := sanitizeInput sanitize adminNotes,
               proofImageUrl := imageUrl }
  match userDoc with
  | none => (req2, none)
  | some u =>
      let currentBalance := u.walletBalance.getD 0
      let newBalance := max 0 (currentBalance - req.amount)
      (req2, some { u with walletBalance := some newBalance,
                           lastUpdated := some nowIso })

/-- Recharge admin approval (part_007 lines 162-199): the request is set
to approved with a processed date and sanitized notes; then, only if the
user document exists, the wallet is credited with the request amount. -/
def handleApproveRechargeRequest (sanitize : String → String) (nowIso : String)
    (req : RechargeRequest) (adminNotes : String)
    (userDoc : Option UserDoc) : RechargeRequest × Option UserDoc :=
  let req2 :=
    { req with status := ReqStatus.approved, processedDate := some nowIso,
               notes := sanitizeInput sanitize adminNotes }
  match userDoc with
  | none => (req2, none)
  | some u =>
      let newBalance := u.walletBalance.getD 0 + req.amount
      (req2, some { u with walletBalance := some newBalance,
                           lastUpdated := some nowIso })

/-- The reward description derivation of UserManagement.handleAddFunds
(lines 119-126). -/
def rewardDescription (gameName position : String) : String :=
  if gameName ≠ "" then
    if position ≠ "" then
      "Reward for " ++ gameName ++ " - " ++ position ++ " position"
    else
      "Reward for " ++ gameName
  else
    "Reward added by administrator"

/-- UserManagement.handleAddFunds (lines 102-151): guarded by a selected
user and a positive amount; if the user document exists, the wallet is
credited and exactly one reward record is appended capturing the
previous and new balance, the derived description and the actor.  A none
result models the guard and missing-document early exits, which perform
no writes. -/
def handleAddFunds (now : Int) (nowIso : String) (currentUserId : String)
    (walletAmount : Int) (gameName position : String)
    (userDoc : Option UserDoc) : Option (UserDoc × RewardRecord) :=
  if currentUserId = "" ∨ walletAmount ≤ 0 then none
  else
    match userDoc with
    | none => none
    | some u =>
        let newBalance := u.walletBalance.getD 0 + walletAmount
        some
          ( { u with walletBalance := some newBalance,
                     lastUpdated := some nowIso }
          , { userId := currentUserId, userEmail := u.email,
              amount := walletAmount,
              description := rewardDescription gameName position,
              gameName := if gameName = "" then none else some gameName,
              position := if position = "" then none else some position,
              addedBy := "Administrator", timestamp := now,
              previousBalance := u.walletBalance.getD 0,
              newBalance := newBalance } )

/-- The distinct validation messages of
UserProfile.handleWithdrawRequest (lines 293-361). -/
inductive WithdrawError where
  | invalidAmount
  | belowMinimum
  | exceedsBalance
  | missingFields
deriving DecidableEq, Repr

/-- UserProfile.handleWithdrawRequest (lines 293-361): validation chain
in source order (amount positive, minimum 300, not exceeding the wallet
balance read from the user document, all account fields non-empty), then
creation of a pending withdrawal request with sanitized account fields.
The user document is returned unchanged: the source handler never
writes it, so the wallet balance is untouched on every path.  The
balance comparison mirrors the optional chaining of the source
(withdrawAmount > userData?.walletBalance), which is false when the
balance field is missing. -/
def handleWithdrawRequest (sanitize : String → String)
    (uid email nowIso : String) (user : UserDoc) (withdrawAmount : Int)
    (accountName accountNumber bankName : String) :
    UserDoc × Except WithdrawError WithdrawalRequest :=
  ( user
  , if withdrawAmount ≤ 0 then Except.error WithdrawError.invalidAmount
    else if withdrawAmount < 300 then Except.error WithdrawError.belowMinimum
    else if (user.walletBalance.map fun b => decide (b < withdrawAmount)).getD false then
      Except.error WithdrawError.exceedsBalance
    else if accountName = "" ∨ accountNumber = "" ∨ bankName = "" then
      Except.error WithdrawError.missingFields
    else
      Except.ok
        { userId := uid, userEmail := email,
          accountName := sanitizeInput sanitize accountName,
          accountNumber := sanitizeInput sanitize accountNumber,
          bankName := sanitizeInput sanitize bankName,
          amount := withdrawAmount, status := ReqStatus.pending,
          requestDate := nowIso, processedDate := none, notes := "",
          proofImageUrl := none } )

/-- The wallet-relevant state of one user across a sequence of ledger
operations. -/
structure UserState where
  uid : String
  email : String
  walletBalance : Int
  joinedTournaments : List String
deriving Repr

/-- View of a UserState as the stored user document handed to the admin
handlers. -/
def toUserDoc (u : UserState) : UserDoc :=
  { email := u.email, walletBalance := some u.walletBalance,
    lastUpdated := none }

/-- The four balance-mutating ledger operations of the spec, each
carrying the inputs of the corresponding source handler. -/
inductive LedgerOp where
  | joinTournament (sanitize : String → String) (username nowIso : String)
      (t : Tournament)
  | approveWithdrawal (sanitize : String → String) (nowIso : String)
      (req : WithdrawalRequest) (adminNotes : String) (imageUrl : Option String)
  | approveRecharge (sanitize : String → String) (nowIso : String)
      (req : RechargeRequest) (adminNotes : String)
  | grantReward (now : Int) (nowIso : String) (amount : Int)
      (gameName position : String)

/-- Applying one ledger operation to a user: each case runs the
corresponding source handler against the user document and keeps the
balance it writes (or leaves the user unchanged when the handler
performs no user write). -/
def applyLedgerOp (u : UserState) : LedgerOp → UserState
  | LedgerOp.joinTournament sanitize username nowIso t =>
      match handleJoinTournament sanitize u.uid u.email u.walletBalance
          u.joinedTournaments username t nowIso with
      | Except.ok r =>
          { u with walletBalance := r.walletBalance,
                   joinedTournaments := r.joinedTournaments }
      | Except.error _ => u
  | LedgerOp.approveWithdrawal sanitize nowIso req adminNotes imageUrl =>
      match (handleApproveRequest sanitize nowIso req adminNotes imageUrl
          (some (toUserDoc u))).2 with
      | some d => { u with walletBalance := d.walletBalance.getD 0 }
      | none => u
  | LedgerOp.approveRecharge sanitize nowIso req adminNotes =>
      match (handleApproveRechargeRequest sanitize nowIso req adminNotes
          (some (toUserDoc u))).2 with
      | some d => { u with walletBalance := d.walletBalance.getD 0 }
      | none => u
  | LedgerOp.grantReward now nowIso amount gameName position =>
      match handleAddFunds now nowIso u.uid amount gameName position
          (some (toUserDoc u)) with
      | some (d, _) => { u with walletBalance := d.walletBalance.getD 0 }
      | none => u

/-- A recharge approval is a credit: its request was created with a
positive amount (RechargeModal validation).  The other operations need
no side condition: the join debit is guarded by the balance check, the
withdrawal debit is floored at zero, and the reward grant is guarded by
its own positivity check. -/
def ledgerOpCredit : LedgerOp → Prop
  | LedgerOp.approveRecharge _ _ req _ => 0 ≤ req.amount
  | _ => True

theorem ne_empty_of_three_le_length {s : String} (h : 3 ≤ s.length) : s ≠ "" := by
  intro he
  rw [he] at h
  simp [String.length] at h

/-- Concrete tournament in which user u1 is already a participant under
the username alpha. -/
def tC4 : Tournament :=
  { id := "T", status := TStatus.upcoming, statusUpdatedAt := none,
    startTime := none, entryFee := 10, maxParticipants := 5,
    participants := [{ userId := "u1", email := "e1", username := "alpha",
                       joinedAt := "iso0" }],
    approved := none, rejectionReason := none }

/-- C4 counterexample: user u1 is already a participant of tC4 (under
username alpha), yet a further handleJoinTournament call by u1 with the
distinct username beta is not rejected: it succeeds and writes a second
participant record for the same user identity, which then appears twice
in the participants list. -/
theorem join_duplicate_identity_counterexample :
    (handleJoinTournament id "u1" "e1" 100 [] "beta" tC4 "iso1").toOption.map
        (fun r => r.tournament.participants.countP fun p => p.userId == "u1") =
      some 2 := by
  rfl

/-- C4 (amended): handleJoinTournament enforces at-most-once
participation only by username, not by identity: a repeat join attempt
by a user already in the participants list is rejected (with the
username-taken reason, performing no writes) exactly when the sanitized
requested username case-insensitively matches an existing participant
record, such as that user's own earlier username; with a distinct
username the same identity can join again (see the counterexample).
The identity-based guard exists only in the UI, which disables the join
button when hasJoined is set (part_009 lines 60-63 and 329-344). -/
theorem join_repeat_same_username_rejected (sanitize : String → String)
    (uid email : String) (walletBalance : Int) (joinedTournaments : List String)
    (username : String) (t : Tournament) (nowIso : String) (p : Participant)
    (hp : p ∈ t.participants) (hpu : p.username ≠ "")
    (hne : jsTrim username ≠ "")
    (hlen : ¬((sanitize (jsTrim username)).length < 3 ∨
              20 < (sanitize (jsTrim username)).length))
    (hmatch : jsToLower p.username = jsToLower (sanitize (jsTrim username))) :
    handleJoinTournament sanitize uid email walletBalance joinedTournaments
        username t nowIso = Except.error JoinError.usernameTaken := by
  have htaken : usernameTakenIn t.participants (sanitize (jsTrim username)) = true := by
    unfold usernameTakenIn
    rw [List.any_eq_true]
    refine ⟨p, hp, ?_⟩
    rw [Bool.and_eq_true]
    constructor
    · simpa [bne_iff_ne] using hpu
    · simpa [beq_iff_eq] using hmatch
  simp only [handleJoinTournament]
  rw [if_neg hne, if_neg hlen, if_pos htaken]

theorem join_repeat_same_username_rejected_witness :
    handleJoinTournament id "u1" "e1" 100 [] "ALPHA" tC4 "iso1" =
      Except.error JoinError.usernameTaken :=
  join_repeat_same_username_rejected id "u1" "e1" 100 [] "ALPHA" tC4 "iso1"
    { userId := "u1", email := "e1", username := "alpha", joinedAt := "iso0" }
    (by decide) (by decide) (by decide) (by decide) (by decide)

/-- C5: the end-to-end join scenario.  A user with balance 500 joining a
tournament with entry fee 200, maxParticipants 1 and no participants
succeeds: the balance becomes 300, the tournament id is appended to the
joined-tournaments list, and the participants list becomes the single
record carrying the user identity, email, sanitized username and join
timestamp.  A second distinct user then attempting to join (with a
valid, untaken username and sufficient balance) is rejected with the
tournament-full reason; the error models the early return, which
changes no balance. -/
theorem join_end_to_end_scenario (sanitize : String → String)
    (uid1 email1 uid2 email2 uname1 uname2 iso1 iso2 : String)
    (bal2 : Int) (jts2 : List String) (t : Tournament)
    (hfee : t.entryFee = 200) (hmax : t.maxParticipants = 1)
    (hparts : t.participants = [])
    (h1ne : jsTrim uname1 ≠ "")
    (h1len : ¬((sanitize (jsTrim uname1)).length < 3 ∨
               20 < (sanitize (jsTrim uname1)).length))
    (h2ne : jsTrim uname2 ≠ "")
    (h2len : ¬((sanitize (jsTrim uname2)).length < 3 ∨
               20 < (sanitize (jsTrim uname2)).length))
    (h2fresh : jsToLower (sanitize (jsTrim uname1)) ≠
               jsToLower (sanitize (jsTrim uname2)))
    (h2bal : 200 ≤ bal2) :
    handleJoinTournament sanitize uid1 email1 500 [] uname1 t iso1 =
      Except.ok
        { walletBalance := 300, joinedTournaments := [t.id],
          tournament :=
            { t with participants :=
                [{ userId := uid1, email := email1,
                   username := sanitize (jsTrim uname1), joinedAt := iso1 }] } } ∧
    handleJoinTournament sanitize uid2 email2 bal2 jts2 uname2
        { t with participants :=
            [{ userId := uid1, email := email1,
               username := sanitize (jsTrim uname1), joinedAt := iso1 }] } iso2 =
      Except.error JoinError.tournamentFull := by
  constructor
  · simp only [handleJoinTournament]
    rw [if_neg h1ne, if_neg h1len]
    rw [if_neg (by simp [usernameTakenIn, hparts])]
    rw [if_neg (by rw [hfee]; decide)]
    rw [if_neg (by rw [hmax, hparts]; decide)]
    simp [arrayUnion, hparts, hfee]
  · simp only [handleJoinTournament]
    rw [if_neg h2ne, if_neg h2len]
    rw [if_neg ?taken]
    case taken =>
      simp only [usernameTakenIn, List.any_eq_true, not_exists]
      intro p hp
      obtain ⟨hp1, hp2⟩ := hp
      simp only [List.mem_singleton] at hp1
      subst hp1
      rw [Bool.and_eq_true] at hp2
      have := of_decide_eq_true (by simpa [beq_iff_eq] using hp2.2)
      exact h2fresh this
    rw [if_neg ?bal]
    case bal =>
      show ¬(bal2 < t.entryFee)
      rw [hfee]
      exact Int.not_lt.mpr h2bal
    rw [if_pos ?full]
    case full =>
      show t.maxParticipants ≤ 1
      exact hmax.le

/-- Concrete tournament for the end-to-end scenario: entry fee 200, one
slot, no participants. -/
def tC5 : Tournament :=
  { id := "T5", status := TStatus.upcoming, statusUpdatedAt := none,
    startTime := none, entryFee := 200, maxParticipants := 1,
    participants := [], approved := none, rejectionReason := none }

theorem join_end_to_end_scenario_witness :
    handleJoinTournament id "u1" "e1" 500 [] "alice" tC5 "iso1" =
      Except.ok
        { walletBalance := 300, joinedTournaments := [tC5.id],
          tournament :=
            { tC5 with participants :=
                [{ userId := "u1", email := "e1", username := "alice",
                   joinedAt := "iso1" }] } } ∧
    handleJoinTournament id "u2" "e2" 1000 [] "bobby"
        { tC5 with participants :=
            [{ userId := "u1", email := "e1", username := "alice",
               joinedAt := "iso1" }] } "iso2" =
      Except.error JoinError.tournamentFull :=
  join_end_to_end_scenario id "u1" "e1" "u2" "e2" "alice" "bobby" "iso1" "iso2"
    1000 [] tC5 rfl rfl rfl (by decide) (by decide) (by decide) (by decide)
    (by decide) (by decide)

/-- The precondition violated by each user-facing rejection reason of
handleJoinTournament, stated on the inputs of the call. -/
def joinErrorCondition (sanitize : String → String) (walletBalance : Int)
    (username : String) (t : Tournament) : JoinError → Prop
  | JoinError.usernameRequired => jsTrim username = ""
  | JoinError.usernameLength =>
      (sanitize (jsTrim username)).length < 3 ∨
        20 < (sanitize (jsTrim username)).length
  | JoinError.usernameTaken =>
      usernameTakenIn t.participants (sanitize (jsTrim username)) = true
  | JoinError.insufficientBalance => walletBalance < t.entryFee
  | JoinError.tournamentFull => t.maxParticipants ≤ t.participants.length

/-- C6: every rejection of handleJoinTournament reports a reason whose
precondition really is violated by the inputs, and whenever any of the
claimed preconditions (valid username length, username untaken,
sufficient balance, free capacity) is violated the call is rejected.
A rejection models the early returns of the source handler, which issue
no writes: balance, joined-tournaments list and participants stay as
passed in. -/
theorem join_rejects_with_specific_reason (sanitize : String → String)
    (uid email : String) (walletBalance : Int)
    (joinedTournaments : List String) (username : String) (t : Tournament)
    (nowIso : String) :
    (∀ e, handleJoinTournament sanitize uid email walletBalance
        joinedTournaments username t nowIso = Except.error e →
      joinErrorCondition sanitize walletBalance username t e) ∧
    ((joinErrorCondition sanitize walletBalance username t JoinError.usernameLength ∨
      joinErrorCondition sanitize walletBalance username t JoinError.usernameTaken ∨
      joinErrorCondition sanitize walletBalance username t JoinError.insufficientBalance ∨
      joinErrorCondition sanitize walletBalance username t JoinError.tournamentFull) →
      ∃ e, handleJoinTournament sanitize uid email walletBalance
          joinedTournaments username t nowIso = Except.error e) := by
  simp only [handleJoinTournament]
  split_ifs with h1 h2 h3 h4 h5
  · constructor
    · intro e he
      cases he
      exact h1
    · intro _
      exact ⟨JoinError.usernameRequired, rfl⟩
  · constructor
    · intro e he
      cases he
      exact h2
    · intro _
      exact ⟨JoinError.usernameLength, rfl⟩
  · constructor
    · intro e he
      cases he
      exact h3
    · intro _
      exact ⟨JoinError.usernameTaken, rfl⟩
  · constructor
    · intro e he
      cases he
      exact h4
    · intro _
      exact ⟨JoinError.insufficientBalance, rfl⟩
  · constructor
    · intro e he
      cases he
      exact h5
    · intro _
      exact ⟨JoinError.tournamentFull, rfl⟩
  · constructor
    · intro e he
      cases he
    · intro hviol
      exfalso
      rcases hviol with hv | hv | hv | hv
      · exact h2 hv
      · exact h3 hv
      · exact h4 hv
      · exact h5 hv

theorem join_rejects_with_specific_reason_witness :
    joinErrorCondition id 5 "gamma" tC4 JoinError.insufficientBalance ∧
    (∃ e, handleJoinTournament id "u1" "e1" 5 [] "gamma" tC4 "iso1" =
      Except.error e) :=
  ⟨(join_rejects_with_specific_reason id "u1" "e1" 5 [] "gamma" tC4 "iso1").1
      JoinError.insufficientBalance (by rfl),
   (join_rejects_with_specific_reason id "u1" "e1" 5 [] "gamma" tC4 "iso1").2
      (Or.inr (Or.inr (Or.inl (by unfold joinErrorCondition; decide))))⟩

theorem handleJoinTournament_ok_balance {sanitize : String → String}
    {uid email : String} {walletBalance : Int}
    {joinedTournaments : List String} {username : String} {t : Tournament}
    {nowIso : String} {r : JoinResult}
    (h : handleJoinTournament sanitize uid email walletBalance
        joinedTournaments username t nowIso = Except.ok r) :
    r.walletBalance = walletBalance - t.entryFee ∧
    t.entryFee ≤ walletBalance := by
  simp only [handleJoinTournament] at h
  split_ifs at h with h1 h2 h3 h4 h5
  all_goals cases h
  exact ⟨rfl, le_of_not_lt h4⟩

theorem applyLedgerOp_nonneg (u : UserState) (op : LedgerOp)
    (h0 : 0 ≤ u.walletBalance) (hc : ledgerOpCredit op) :
    0 ≤ (applyLedgerOp u op).walletBalance := by
  cases op with
  | joinTournament sanitize username nowIso t =>
    simp only [applyLedgerOp]
    cases hres : handleJoinTournament sanitize u.uid u.email u.walletBalance
        u.joinedTournaments username t nowIso with
    | ok r =>
      obtain ⟨hb1, hb2⟩ := handleJoinTournament_ok_balance hres
      show 0 ≤ r.walletBalance
      rw [hb1]
      exact sub_nonneg.mpr hb2
    | error e =>
      exact h0
  | approveWithdrawal sanitize nowIso req adminNotes imageUrl =>
    show 0 ≤ max 0 (u.walletBalance - req.amount)
    exact le_max_left 0 _
  | approveRecharge sanitize nowIso req adminNotes =>
    show 0 ≤ u.walletBalance + req.amount
    have hcr : 0 ≤ req.amount := hc
    exact add_nonneg h0 hcr
  | grantReward now nowIso amount gameName position =>
    simp only [applyLedgerOp, handleAddFunds]
    by_cases hg : u.uid = "" ∨ amount ≤ 0
    · rw [if_pos hg]
      exact h0
    · rw [if_neg hg]
      show 0 ≤ u.walletBalance + amount
      rw [not_or] at hg
      exact add_nonneg h0 (not_le.mp hg.2).le

theorem foldl_applyLedgerOp_nonneg (ops : List LedgerOp) (u : UserState)
    (h0 : 0 ≤ u.walletBalance) (hc : ∀ op ∈ ops, ledgerOpCredit op) :
    0 ≤ (ops.foldl applyLedgerOp u).walletBalance := by
  induction ops generalizing u with
  | nil => exact h0
  | cons op rest ih =>
    simp only [List.foldl_cons]
    exact ih (applyLedgerOp u op)
      (applyLedgerOp_nonneg u op h0 (hc op (by simp)))
      (fun o ho => hc o (by simp [ho]))

/-- C1: starting from a non-negative wallet balance, every prefix of any
sequence of ledger operations (join debit, withdrawal-approval debit,
recharge-approval credit, reward credit) leaves the balance
non-negative, provided the recharge credits carry the non-negative
amounts their request-creation validation guarantees; and the
withdrawal-approval debit writes exactly max 0 (currentBalance - amount)
rather than a negative balance. -/
theorem wallet_balance_nonnegative (u : UserState) (ops : List LedgerOp)
    (h0 : 0 ≤ u.walletBalance) (hc : ∀ op ∈ ops, ledgerOpCredit op) :
    (∀ n, 0 ≤ ((ops.take n).foldl applyLedgerOp u).walletBalance) ∧
    (∀ (sanitize : String → String) (nowIso : String)
        (req : WithdrawalRequest) (adminNotes : String)
        (imageUrl : Option String),
      (applyLedgerOp u (LedgerOp.approveWithdrawal sanitize nowIso req
          adminNotes imageUrl)).walletBalance =
        max 0 (u.walletBalance - req.amount)) := by
  constructor
  · intro n
    exact foldl_applyLedgerOp_nonneg (ops.take n) u h0
      (fun o ho => hc o (List.take_subset n ops ho))
  · intro sanitize nowIso req adminNotes imageUrl
    rfl

/-- Concrete user and requests instantiating the ledger theorems. -/
def uLedger : UserState :=
  { uid := "u1", email := "e1", walletBalance := 100, joinedTournaments := [] }

def reqWLedger : WithdrawalRequest :=
  { userId := "u1", userEmail := "e1", accountName := "A", accountNumber := "1",
    bankName := "B", amount := 500, status := ReqStatus.pending,
    requestDate := "r", processedDate := none, notes := "",
    proofImageUrl := none }

def reqRLedger : RechargeRequest :=
  { userId := "u1", userEmail := "e1", amount := 50,
    status := ReqStatus.pending, requestDate := "r", processedDate := none,
    notes := "" }

def opsLedger : List LedgerOp :=
  [LedgerOp.approveRecharge id "iso" reqRLedger "",
   LedgerOp.approveWithdrawal id "iso" reqWLedger "" none]

theorem wallet_balance_nonnegative_witness :
    0 ≤ ((opsLedger.take 2).foldl applyLedgerOp uLedger).walletBalance ∧
    (applyLedgerOp uLedger
        (LedgerOp.approveWithdrawal id "iso" reqWLedger "" none)).walletBalance =
      max 0 (uLedger.walletBalance - reqWLedger.amount) := by
  have hc : ∀ op ∈ opsLedger, ledgerOpCredit op := by
    intro op hop
    rcases List.mem_cons.mp hop with h | hop2
    · subst h
      unfold ledgerOpCredit
      decide
    · rcases List.mem_singleton.mp hop2 with h
      subst h
      unfold ledgerOpCredit
      trivial
  have h := wallet_balance_nonnegative uLedger opsLedger (by decide) hc
  exact ⟨h.1 2, h.2 id "iso" reqWLedger "" none⟩

/-- C7: a reward grant with a positive amount on an existing user
produces exactly one reward record (the single record returned), whose
newBalance equals previousBalance plus the amount; the user wallet is
written to exactly that newBalance; and the record carries the recipient
identity and email, the actor, the grant timestamp, and the description
derived from gameName and position when provided, else the generic
one. -/
theorem grant_reward_audit (now : Int) (nowIso currentUserId : String)
    (walletAmount : Int) (gameName position : String) (u : UserDoc)
    (hid : currentUserId ≠ "") (hamt : 0 < walletAmount) :
    ∃ u2 rec,
      handleAddFunds now nowIso currentUserId walletAmount gameName position
          (some u) = some (u2, rec) ∧
      rec.newBalance = rec.previousBalance + walletAmount ∧
      u2.walletBalance = some rec.newBalance ∧
      rec.previousBalance = u.walletBalance.getD 0 ∧
      rec.userId = currentUserId ∧
      rec.userEmail = u.email ∧
      rec.amount = walletAmount ∧
      rec.addedBy = "Administrator" ∧
      rec.timestamp = now ∧
      (gameName = "" → rec.description = "Reward added by administrator") ∧
      (gameName ≠ "" → position = "" →
        rec.description = "Reward for " ++ gameName) ∧
      (gameName ≠ "" → position ≠ "" →
        rec.description =
          "Reward for " ++ gameName ++ " - " ++ position ++ " position") := by
  have hguard : ¬(currentUserId = "" ∨ walletAmount ≤ 0) :=
    not_or.mpr ⟨hid, not_le.mpr hamt⟩
  refine
    ⟨{ u with walletBalance := some (u.walletBalance.getD 0 + walletAmount),
              lastUpdated := some nowIso },
     { userId := currentUserId, userEmail := u.email, amount := walletAmount,
       description := rewardDescription gameName position,
       gameName := if gameName = "" then none else some gameName,
       position := if position = "" then none else some position,
       addedBy := "Administrator", timestamp := now,
       previousBalance := u.walletBalance.getD 0,
       newBalance := u.walletBalance.getD 0 + walletAmount },
     ?_, rfl, rfl, rfl, rfl, rfl, rfl, rfl, rfl, ?_, ?_, ?_⟩
  · simp only [handleAddFunds]
    rw [if_neg hguard]
  · intro hg
    simp only [rewardDescription]
    rw [if_neg (by simpa using hg)]
  · intro hg hp
    simp only [rewardDescription]
    rw [if_pos hg, if_neg (by simpa using hp)]
  · intro hg hp
    simp only [rewardDescription]
    rw [if_pos hg, if_pos hp]

theorem grant_reward_audit_witness :
    ∃ u2 rec,
      handleAddFunds 777 "iso" "u1" 50 "PUBG" "1st"
          (some { email := "e1", walletBalance := some 100,
                  lastUpdated := none }) = some (u2, rec) ∧
      rec.newBalance = rec.previousBalance + 50 ∧
      u2.walletBalance = some rec.newBalance ∧
      rec.previousBalance =
        (some (100 : Int) : Option Int).getD 0 ∧
      rec.userId = "u1" ∧
      rec.userEmail = "e1" ∧
      rec.amount = 50 ∧
      rec.addedBy = "Administrator" ∧
      rec.timestamp = 777 ∧
      (("PUBG" : String) = "" → rec.description = "Reward added by administrator") ∧
      (("PUBG" : String) ≠ "" → ("1st" : String) = "" →
        rec.description = "Reward for " ++ "PUBG") ∧
      (("PUBG" : String) ≠ "" → ("1st" : String) ≠ "" →
        rec.description =
          "Reward for " ++ "PUBG" ++ " - " ++ "1st" ++ " position") :=
  grant_reward_audit 777 "iso" "u1" 50 "PUBG" "1st"
    { email := "e1", walletBalance := some 100, lastUpdated := none }
    (by decide) (by decide)

/-- C9: the withdrawal request handler creates a request exactly when
amount is at least 300 (which subsumes its positivity check), amount is
at most the wallet balance stored on the user document, and all three
account fields are non-empty; the created request is pending and carries
the requested amount and the requester identity.  On every path the user
document (hence the wallet balance) is returned untouched: the source
handler performs no user write, and every violating input is rejected by
one of the validation messages with no request created. -/
theorem withdraw_request_validation (sanitize : String → String)
    (uid email nowIso : String) (u : UserDoc) (bal : Int)
    (amount : Int) (accountName accountNumber bankName : String)
    (hbal : u.walletBalance = some bal) :
    (handleWithdrawRequest sanitize uid email nowIso u amount accountName
        accountNumber bankName).1 = u ∧
    ((∃ r, (handleWithdrawRequest sanitize uid email nowIso u amount
          accountName accountNumber bankName).2 = Except.ok r ∧
        r.status = ReqStatus.pending ∧ r.amount = amount ∧ r.userId = uid) ↔
      (300 ≤ amount ∧ amount ≤ bal ∧ accountName ≠ "" ∧
        accountNumber ≠ "" ∧ bankName ≠ "")) := by
  refine ⟨rfl, ?_⟩
  simp only [handleWithdrawRequest, hbal]
  split_ifs with h1 h2 h3 h4
  · constructor
    · rintro ⟨r, hr, -⟩
      cases hr
    · rintro ⟨ha, -⟩
      exact absurd ha (by omega)
  · constructor
    · rintro ⟨r, hr, -⟩
      cases hr
    · rintro ⟨ha, -⟩
      exact absurd ha (by omega)
  · constructor
    · rintro ⟨r, hr, -⟩
      cases hr
    · rintro ⟨-, hb, -⟩
      have h3b : bal < amount := by simpa using h3
      exact absurd hb (by omega)
  · constructor
    · rintro ⟨r, hr, -⟩
      cases hr
    · rintro ⟨-, -, hn1, hn2, hn3⟩
      rcases h4 with h | h | h
      · exact absurd h hn1
      · exact absurd h hn2
      · exact absurd h hn3
  · have h3b : ¬bal < amount := by simpa using h3
    constructor
    · rintro -
      refine ⟨by omega, by omega, ?_, ?_, ?_⟩
      · intro he
        exact h4 (Or.inl he)
      · intro he
        exact h4 (Or.inr (Or.inl he))
      · intro he
        exact h4 (Or.inr (Or.inr he))
    · intro _
      exact ⟨_, rfl, rfl, rfl, rfl⟩

/-- Concrete user document instantiating the withdrawal request
theorem. -/
def uWithdraw : UserDoc :=
  { email := "e1", walletBalance := some 1000, lastUpdated := none }

theorem withdraw_request_validation_witness :
    (handleWithdrawRequest id "u1" "e1" "iso" uWithdraw 300 "N" "123"
        "Bank").1 = uWithdraw ∧
    ((∃ r, (handleWithdrawRequest id "u1" "e1" "iso" uWithdraw 300 "N" "123"
          "Bank").2 = Except.ok r ∧
        r.status = ReqStatus.pending ∧ r.amount = 300 ∧ r.userId = "u1") ↔
      ((300 : Int) ≤ 300 ∧ (300 : Int) ≤ 1000 ∧ ("N" : String) ≠ "" ∧
        ("123" : String) ≠ "" ∧ ("Bank" : String) ≠ "")) :=
  withdraw_request_validation id "u1" "e1" "iso" uWithdraw 1000 300 "N" "123"
    "Bank" rfl

/-- C10: when the user document referenced by a pending withdrawal or
recharge request does not exist at approval time, the approval still
succeeds: the request is marked approved with a stamped processedDate,
but the handler performs no wallet write at all (the user-write
component is none), reports no error and performs no rollback
(translated from the userDoc.exists() guards of
WithdrawalManagement.handleApproveRequest and the recharge
handleApproveRequest in part_007). -/
theorem approve_missing_user_no_wallet_write (sanitize : String → String)
    (nowIso : String) (req : WithdrawalRequest) (adminNotes : String)
    (imageUrl : Option String) (sanitize2 : String → String) (nowIso2 : String)
    (req2 : RechargeRequest) (adminNotes2 : String) :
    (handleApproveRequest sanitize nowIso req adminNotes imageUrl
        none).1.status = ReqStatus.approved ∧
    (handleApproveRequest sanitize nowIso req adminNotes imageUrl
        none).1.processedDate = some nowIso ∧
    (handleApproveRequest sanitize nowIso req adminNotes imageUrl none).2 =
      none ∧
    (handleApproveRechargeRequest sanitize2 nowIso2 req2 adminNotes2
        none).1.status = ReqStatus.approved ∧
    (handleApproveRechargeRequest sanitize2 nowIso2 req2 adminNotes2
        none).1.processedDate = some nowIso2 ∧
    (handleApproveRechargeRequest sanitize2 nowIso2 req2 adminNotes2
        none).2 = none :=
  ⟨rfl, rfl, rfl, rfl, rfl, rfl⟩
